import Mathlib

/-!
Verification of the BTVizLite core against its specification.

The embedding translates the decoding and buffering logic of
`src/btviz/display_widget.py` (`DisplayWidget.decodeRoutine`,
`DisplayWidget.confirmValues`) and the session logic of
`src/btviz/core/__init__.py` (`BTManager`) into Lean.

Numeric samples are modelled as rationals: every payload value exercised
here is an exact decimal literal, so ℚ represents the parsed values
faithfully for the properties considered.
-/

namespace BTViz

/-- A Python `collections.deque` with a `maxlen` bound, as used for
`self.data_queues[i]`: `data` lists samples oldest first; appending past
`maxlen` evicts from the left. -/
structure ChannelBuffer where
  maxlen : Nat
  data : List ℚ
deriving DecidableEq

/-- `deque.append(v)`: push `v` on the right; if the deque is at `maxlen`,
the leftmost (oldest) element is dropped. -/
def ChannelBuffer.append (b : ChannelBuffer) (v : ℚ) : ChannelBuffer :=
  let d := b.data ++ [v]
  { b with data := if b.maxlen < d.length then d.drop (d.length - b.maxlen) else d }

/-- Whether a byte is a UTF-8 continuation byte (`0x80..0xBF`). -/
def isCont (b : Nat) : Bool := decide (0x80 ≤ b ∧ b < 0xC0)

/-- Strict UTF-8 decoding of a byte list, as `bytes.decode("UTF-8")` does:
overlong encodings, surrogates, out-of-range scalars and truncated
sequences are rejected. -/
def utf8Decode : List Nat → Option (List Char)
  | [] => some []
  | b :: l =>
    if b < 0x80 then
      (utf8Decode l).map (fun cs => Char.ofNat b :: cs)
    else if b < 0xC2 then none
    else if b < 0xE0 then
      match l with
      | b1 :: l1 =>
        if isCont b1 then
          (utf8Decode l1).map (fun cs => Char.ofNat ((b - 0xC0) * 0x40 + (b1 - 0x80)) :: cs)
        else none
      | [] => none
    else if b < 0xF0 then
      match l with
      | b1 :: b2 :: l2 =>
        if isCont b1 && isCont b2 then
          let cp := (b - 0xE0) * 0x1000 + (b1 - 0x80) * 0x40 + (b2 - 0x80)
          if cp < 0x800 ∨ (0xD800 ≤ cp ∧ cp < 0xE000) then none
          else (utf8Decode l2).map (fun cs => Char.ofNat cp :: cs)
        else none
      | _ => none
    else if b < 0xF5 then
      match l with
      | b1 :: b2 :: b3 :: l3 =>
        if isCont b1 && isCont b2 && isCont b3 then
          let cp := (b - 0xF0) * 0x40000 + (b1 - 0x80) * 0x1000 + (b2 - 0x80) * 0x40 + (b3 - 0x80)
          if cp < 0x10000 ∨ 0x110000 ≤ cp then none
          else (utf8Decode l3).map (fun cs => Char.ofNat cp :: cs)
        else none
      | _ => none
    else none

/-- `str.split(",")`: splitting on the comma delimiter; the result is never
empty (splitting the empty string gives one empty token). -/
def splitOnComma : List Char → List (List Char)
  | [] => [[]]
  | c :: rest =>
    let r := splitOnComma rest
    if c = ',' then [] :: r
    else (c :: r.headD []) :: r.tail

/-- The NUL character `'\x00'`. -/
def nulChar : Char := Char.ofNat 0

/-- `decoded_item.replace('\x00', '')`: every NUL character of the token is
removed, wherever it occurs. -/
def stripNulAll (t : List Char) : List Char := t.filter (fun c => c ≠ nulChar)

/-- Written to the spec's words ("trailing NUL padding characters stripped"):
only a trailing run of NUL characters is removed. Stated for comparison with
`stripNulAll`, which is what the code does. -/
def stripNulTrailing (t : List Char) : List Char :=
  (t.reverse.dropWhile (fun c => c = nulChar)).reverse

/-- Digits consumed greedily from the front of a token, with the rest. -/
def takeDigits : List Char → List Nat × List Char
  | [] => ([], [])
  | c :: r =>
    if '0' ≤ c ∧ c ≤ '9' then
      let p := takeDigits r
      ((c.toNat - 48) :: p.1, p.2)
    else ([], c :: r)

/-- The natural number written by a digit list (most significant first). -/
def digitsToNat (ds : List Nat) : Nat := ds.foldl (fun a d => a * 10 + d) 0

/-- The unsigned part of a decimal literal: `digits`, `digits.digits`,
`digits.` or `.digits`. -/
def pyFloatCore (s : List Char) : Option ℚ :=
  let p := takeDigits s
  match p.2 with
  | [] => if p.1.isEmpty then none else some ((digitsToNat p.1 : ℚ))
  | '.' :: r =>
    let q := takeDigits r
    if q.2.isEmpty then
      if p.1.isEmpty && q.1.isEmpty then none
      else some ((digitsToNat p.1 : ℚ) + (digitsToNat q.1 : ℚ) / ((10 : ℚ) ^ q.1.length))
    else none
  | _ => none

/-- Python `float(token)` on plain signed decimal literals. Exponents,
`inf`/`nan`, digit underscores and surrounding whitespace are not modelled:
no payload considered in this development uses them. Returns `none` exactly
when `float` raises `ValueError` on such a token. -/
def pyFloat : List Char → Option ℚ
  | '-' :: r => (pyFloatCore r).map (fun x => -x)
  | '+' :: r => pyFloatCore r
  | s => pyFloatCore s

/-- The observable error reports of `decodeRoutine` (each is a
`QMessageBox.warning` in the code). -/
inductive DecodeEvent where
  | encodingError : DecodeEvent
  | channelMismatch : Nat → Nat → DecodeEvent
  | numericParse : Nat → DecodeEvent
deriving DecidableEq

/-- The outcome of one `decodeRoutine` call: the updated `data_queues`, the
warnings raised, and whether `self.close()` was invoked (which, through
`closeEvent`, stops the notification subscription). -/
structure DecodeResult where
  queues : List ChannelBuffer
  events : List DecodeEvent
  closed : Bool
deriving DecidableEq

/-- In-place `self.data_queues[idx].append(v)`: the buffer at position `i`
is appended to, the others kept. -/
def appendAt : List ChannelBuffer → Nat → ℚ → List ChannelBuffer
  | [], _, _ => []
  | q :: qs, 0, v => q.append v :: qs
  | q :: qs, Nat.succ i, v => q :: appendAt qs i v

/-- The `for idx, decoded_item in enumerate(decoded_list)` loop of
`decodeRoutine`, starting at index `i`: each token is NUL-stripped and
parsed; on success the value is appended to the queue at that index, on
failure a `numericParse` warning is recorded and the loop continues. -/
def applyTokens : List ChannelBuffer → List (List Char) → Nat → List ChannelBuffer × List DecodeEvent
  | qs, [], _ => (qs, [])
  | qs, t :: ts, i =>
    match pyFloat (stripNulAll t) with
    | some v => applyTokens (appendAt qs i v) ts (i + 1)
    | none =>
      let p := applyTokens qs ts (i + 1)
      (p.1, DecodeEvent.numericParse i :: p.2)

/-- `DisplayWidget.decodeRoutine`: decode the payload as UTF-8 (on failure
warn, close the widget, and fall through with an empty token list), then
reject the frame if the token count differs from `len(self.data_queues)`,
otherwise run the per-token parse-and-append loop. -/
def decodeRoutine (qs : List ChannelBuffer) (payload : List Nat) : DecodeResult :=
  match utf8Decode payload with
  | none =>
    if qs.length = 0 then
      { queues := qs, events := [DecodeEvent.encodingError], closed := true }
    else
      { queues := qs
        events := [DecodeEvent.encodingError, DecodeEvent.channelMismatch qs.length 0]
        closed := true }
  | some text =>
    let toks := splitOnComma text
    if toks.length ≠ qs.length then
      { queues := qs
        events := [DecodeEvent.channelMismatch qs.length toks.length]
        closed := false }
    else
      let p := applyTokens qs toks 0
      { queues := p.1, events := p.2, closed := false }

/-- A fresh buffer `deque([0] * 100, maxlen=100)`. -/
def zeroBuffer : ChannelBuffer := { maxlen := 100, data := List.replicate 100 0 }

/-- `DisplayWidget.confirmValues`: `self.data_queues` is reassigned to
`num_values` fresh zero-filled deques; the previous queues (`old`) are
discarded unconditionally. -/
def confirmValues (_old : List ChannelBuffer) (numValues : Nat) : List ChannelBuffer :=
  List.replicate numValues zeroBuffer

/-- The queue state after a sequence of notification payloads is processed
by `decodeRoutine`, in arrival order. -/
def decodeMany (qs : List ChannelBuffer) (ps : List (List Nat)) : List ChannelBuffer :=
  ps.foldl (fun q p => (decodeRoutine q p).queues) qs

/-- Appending a whole sequence of samples to one buffer. -/
def appendAll (b : ChannelBuffer) (vs : List ℚ) : ChannelBuffer :=
  vs.foldl ChannelBuffer.append b

/-- The `numericParse` warnings the token loop emits: one per token that
fails to parse, carrying the token's index. -/
def failEvents : List (List Char) → Nat → List DecodeEvent
  | [], _ => []
  | t :: ts, i =>
    if pyFloat (stripNulAll t) = none then DecodeEvent.numericParse i :: failEvents ts (i + 1)
    else failEvents ts (i + 1)

/-- Session errors of `BTManager` (each `raise Exception(...)` site). -/
inductive BTError where
  | alreadyConnected : BTError
  | connectionError : BTError
  | notConnected : BTError
deriving DecidableEq

/-- The result of a session operation: a value, or a raised error. -/
inductive BTOutcome (α : Type) where
  | ok : α → BTOutcome α
  | err : BTError → BTOutcome α
deriving DecidableEq

/-- The `BleakClient` held by the manager: the device it was built for and
whether its transport-level `connect()` succeeded. -/
structure BTClient where
  device : Nat
  connected : Bool
deriving DecidableEq

/-- `BTManager`: its only session state is `self.client`
(`None` or a `BleakClient`). -/
structure BTManager where
  client : Option BTClient
deriving DecidableEq

/-- `BTManager.connect_to_device`: unconditionally overwrite `self.client`
with a fresh `BleakClient(device)` and attempt the transport connect; `ok`
is the oracle for whether `await self.client.connect()` succeeds (on
failure the method re-raises, with `self.client` already replaced). -/
def connect_to_device (s : BTManager) (device : Nat) (ok : Bool) : BTManager × BTOutcome Unit :=
  let s2 : BTManager := { s with client := some { device := device, connected := ok } }
  if ok then (s2, BTOutcome.ok ()) else (s2, BTOutcome.err BTError.connectionError)

/-- `BTManager.disconnect_from_device`: if a client is held, disconnect it
and clear `self.client`; otherwise do nothing. -/
def disconnect_from_device (s : BTManager) : BTManager :=
  match s.client with
  | some _ => { s with client := none }
  | none => s

/-- `BTManager.read_characteristic`: returns the transport's bytes when a
client is held, and raises "No device connected" otherwise; `bytes` is the
oracle for what the transport would return. -/
def read_characteristic (s : BTManager) (bytes : List Nat) : BTOutcome (List Nat) :=
  match s.client with
  | some _ => BTOutcome.ok bytes
  | none => BTOutcome.err BTError.notConnected

/-- Payload bytes of `"1.0,2.0,3.0"`. -/
def payloadThree : List Nat := [49, 46, 48, 44, 50, 46, 48, 44, 51, 46, 48]

/-- Payload bytes of `"1.0,2.0"`. -/
def payloadTwo : List Nat := [49, 46, 48, 44, 50, 46, 48]

/-- Payload bytes of `"1.0,x,3.0"`. -/
def payloadBadToken : List Nat := [49, 46, 48, 44, 120, 44, 51, 46, 48]

/-- Payload bytes of `"1\x005"`: a single token with an interior NUL. -/
def payloadInnerNul : List Nat := [49, 0, 53]

/-- The token `"1\x005"` as characters. -/
def tokenInnerNul : List Char := ['1', nulChar, '5']

/-- The text `"1.0,2.0,3.0"` as characters. -/
def textThree : List Char := ['1', '.', '0', ',', '2', '.', '0', ',', '3', '.', '0']

/-- The text `"1.0,2.0"` as characters. -/
def textTwo : List Char := ['1', '.', '0', ',', '2', '.', '0']

/-- The text `"1.0,x,3.0"` as characters. -/
def textBadToken : List Char := ['1', '.', '0', ',', 'x', ',', '3', '.', '0']

/-- The last `n` elements of a list (all of it when it is shorter). -/
def lastN (n : Nat) (l : List ℚ) : List ℚ := l.drop (l.length - n)

/-- How the token loop transforms the queue at index `j`, given the token
at that index: parsed tokens are appended, failing tokens leave the queue
untouched. Used to state the per-index behaviour of `decodeRoutine`. -/
def tokenEffect (t : List Char) (q : ChannelBuffer) : ChannelBuffer :=
  match pyFloat (stripNulAll t) with
  | some v => q.append v
  | none => q

section Lemmas

lemma append_maxlen (b : ChannelBuffer) (v : ℚ) : (b.append v).maxlen = b.maxlen := by
  simp [ChannelBuffer.append]

lemma append_data (b : ChannelBuffer) (v : ℚ) :
    (b.append v).data = lastN b.maxlen (b.data ++ [v]) := by
  simp only [ChannelBuffer.append, lastN]
  split
  · rfl
  · next h =>
    simp only [List.length_append, List.length_singleton] at h ⊢
    have : b.data.length + 1 - b.maxlen = 0 := by omega
    simp [this]

lemma append_length (b : ChannelBuffer) (v : ℚ) :
    (b.append v).data.length = min (b.data.length + 1) b.maxlen := by
  rw [append_data, lastN]
  simp only [List.length_drop, List.length_append, List.length_singleton]
  omega

lemma lastN_of_le {n : Nat} {l : List ℚ} (h : l.length ≤ n) : lastN n l = l := by
  unfold lastN
  have : l.length - n = 0 := by omega
  simp [this]

lemma lastN_lastN_append (n : Nat) (x y : List ℚ) :
    lastN n (lastN n x ++ y) = lastN n (x ++ y) := by
  unfold lastN
  rcases Nat.le_total n x.length with hc | hc
  · rcases Nat.le_total n y.length with hy | hy
    · have e1 : (x.drop (x.length - n) ++ y).length - n
          = (x.drop (x.length - n)).length + (y.length - n) := by
        simp only [List.length_append, List.length_drop]; omega
      have e2 : (x ++ y).length - n = x.length + (y.length - n) := by
        simp only [List.length_append]; omega
      rw [e1, List.drop_append, e2, List.drop_append]
    · have e1 : (x.drop (x.length - n) ++ y).length - n ≤ (x.drop (x.length - n)).length := by
        simp only [List.length_append, List.length_drop]; omega
      have e2 : (x ++ y).length - n ≤ x.length := by
        simp only [List.length_append]; omega
      rw [List.drop_append_of_le_length e1, List.drop_append_of_le_length e2,
        List.drop_drop]
      have e3 : x.length - n + ((x.drop (x.length - n) ++ y).length - n)
          = (x ++ y).length - n := by
        simp only [List.length_append, List.length_drop]; omega
      rw [e3]
  · have : x.length - n = 0 := by omega
    simp [this]

lemma appendAll_cons (b : ChannelBuffer) (v : ℚ) (vs : List ℚ) :
    appendAll b (v :: vs) = appendAll (b.append v) vs := rfl

lemma appendAll_maxlen (b : ChannelBuffer) (vs : List ℚ) :
    (appendAll b vs).maxlen = b.maxlen := by
  induction vs generalizing b with
  | nil => rfl
  | cons v vs ih => rw [appendAll_cons, ih, append_maxlen]

lemma appendAll_data (b : ChannelBuffer) (vs : List ℚ) (h : b.data.length ≤ b.maxlen) :
    (appendAll b vs).data = lastN b.maxlen (b.data ++ vs) := by
  induction vs generalizing b with
  | nil => rw [List.append_nil]; exact (lastN_of_le h).symm
  | cons v vs ih =>
    rw [appendAll_cons]
    have h2 : (b.append v).data.length ≤ (b.append v).maxlen := by
      rw [append_length, append_maxlen]; omega
    rw [ih (b.append v) h2, append_maxlen, append_data, lastN_lastN_append]
    congr 1
    simp

lemma tokenEffect_nil (q : ChannelBuffer) : tokenEffect [] q = q := rfl

lemma splitOnComma_length_pos (s : List Char) : 0 < (splitOnComma s).length := by
  cases s with
  | nil => simp [splitOnComma]
  | cons c rest =>
    simp only [splitOnComma]
    split <;> simp

lemma appendAt_get? (qs : List ChannelBuffer) (i : Nat) (v : ℚ) (j : Nat) :
    (appendAt qs i v).get? j =
      if j = i then (qs.get? j).map (fun q => q.append v) else qs.get? j := by
  induction qs generalizing i j with
  | nil => simp [appendAt]
  | cons q qs ih =>
    cases i with
    | zero =>
      cases j with
      | zero => simp [appendAt]
      | succ j => simp [appendAt]
    | succ i =>
      cases j with
      | zero => simp [appendAt]
      | succ j =>
        simp only [appendAt, List.get?_cons_succ, Nat.succ_eq_add_one, Nat.add_right_cancel_iff]
        exact ih i j

lemma applyTokens_snd (ts : List (List Char)) (qs : List ChannelBuffer) (i : Nat) :
    (applyTokens qs ts i).2 = failEvents ts i := by
  induction ts generalizing qs i with
  | nil => rfl
  | cons t ts ih =>
    simp only [applyTokens, failEvents]
    cases h : pyFloat (stripNulAll t) with
    | none => simp [ih]
    | some v => simp [ih]

lemma applyTokens_get? (ts : List (List Char)) (qs : List ChannelBuffer) (i j : Nat) :
    (applyTokens qs ts i).1.get? j =
      if j < i then qs.get? j
      else (qs.get? j).map (tokenEffect (ts.getD (j - i) [])) := by
  induction ts generalizing qs i with
  | nil =>
    simp only [applyTokens, List.getD]
    split
    · rfl
    · cases hq : qs.get? j <;> simp [hq, tokenEffect_nil]
  | cons t ts ih =>
    simp only [applyTokens]
    cases hp : pyFloat (stripNulAll t) with
    | some v =>
      simp only [hp]
      rw [ih (appendAt qs i v) (i + 1), appendAt_get?]
      rcases Nat.lt_trichotomy j i with hj | hj | hj
      · rw [if_pos (by omega), if_neg (by omega), if_pos hj]
      · subst hj
        rw [if_pos (by omega), if_pos rfl, if_neg (by omega)]
        have : (t :: ts).getD (j - j) [] = t := by simp
        rw [this]
        cases hq : qs.get? j <;> simp [hq, tokenEffect, hp]
      · rw [if_neg (by omega), if_neg (by omega), if_neg (by omega)]
        have : (t :: ts).getD (j - i) [] = ts.getD (j - (i + 1)) [] := by
          have hji : j - i = (j - (i + 1)) + 1 := by omega
          rw [hji, List.getD_cons_succ]
        rw [this]
    | none =>
      simp only [hp]
      rw [ih qs (i + 1)]
      rcases Nat.lt_trichotomy j i with hj | hj | hj
      · rw [if_pos (by omega), if_pos hj]
      · subst hj
        rw [if_pos (by omega), if_neg (by omega)]
        have ht : (t :: ts).getD (j - j) [] = t := by simp
        rw [ht]
        cases hq : qs.get? j <;> simp [hq, tokenEffect, hp]
      · rw [if_neg (by omega), if_neg (by omega)]
        have ht : (t :: ts).getD (j - i) [] = ts.getD (j - (i + 1)) [] := by
          have hji : j - i = (j - (i + 1)) + 1 := by omega
          rw [hji, List.getD_cons_succ]
        rw [ht]

lemma decodeRoutine_valid (qs : List ChannelBuffer) (payload : List Nat) (text : List Char)
    (h1 : utf8Decode payload = some text)
    (h2 : (splitOnComma text).length = qs.length) :
    decodeRoutine qs payload =
      { queues := (applyTokens qs (splitOnComma text) 0).1
        events := (applyTokens qs (splitOnComma text) 0).2
        closed := false } := by
  simp [decodeRoutine, h1, h2]

lemma decodeRoutine_mismatch (qs : List ChannelBuffer) (payload : List Nat) (text : List Char)
    (h1 : utf8Decode payload = some text)
    (h2 : (splitOnComma text).length ≠ qs.length) :
    decodeRoutine qs payload =
      { queues := qs
        events := [DecodeEvent.channelMismatch qs.length (splitOnComma text).length]
        closed := false } := by
  simp [decodeRoutine, h1, h2]

lemma mem_appendAt {qs : List ChannelBuffer} {i : Nat} {v : ℚ} {q' : ChannelBuffer}
    (h : q' ∈ appendAt qs i v) : q' ∈ qs ∨ ∃ q, q ∈ qs ∧ q' = q.append v := by
  induction qs generalizing i with
  | nil => simp [appendAt] at h
  | cons q qs ih =>
    cases i with
    | zero =>
      simp only [appendAt, List.mem_cons] at h
      rcases h with h | h
      · exact Or.inr ⟨q, List.mem_cons_self q qs, h⟩
      · exact Or.inl (List.mem_cons_of_mem q h)
    | succ i =>
      simp only [appendAt, List.mem_cons] at h
      rcases h with h | h
      · exact Or.inl (h ▸ List.mem_cons_self q qs)
      · rcases ih h with h2 | ⟨q0, hq0, he⟩
        · exact Or.inl (List.mem_cons_of_mem q h2)
        · exact Or.inr ⟨q0, List.mem_cons_of_mem q hq0, he⟩

lemma applyTokens_pres (P : ChannelBuffer → Prop)
    (hP : ∀ q v, P q → P (q.append v))
    (ts : List (List Char)) (qs : List ChannelBuffer) (i : Nat)
    (h : ∀ q ∈ qs, P q) :
    ∀ q ∈ (applyTokens qs ts i).1, P q := by
  induction ts generalizing qs i with
  | nil => exact h
  | cons t ts ih =>
    simp only [applyTokens]
    cases hp : pyFloat (stripNulAll t) with
    | some v =>
      simp only [hp]
      refine ih (appendAt qs i v) (i + 1) ?_
      intro q hq
      rcases mem_appendAt hq with hq2 | ⟨q0, hq0, he⟩
      · exact h q hq2
      · exact he ▸ hP q0 v (h q0 hq0)
    | none =>
      simp only [hp]
      exact ih qs (i + 1) h

lemma decodeRoutine_pres (P : ChannelBuffer → Prop)
    (hP : ∀ q v, P q → P (q.append v))
    (qs : List ChannelBuffer) (p : List Nat)
    (h : ∀ q ∈ qs, P q) :
    ∀ q ∈ (decodeRoutine qs p).queues, P q := by
  intro q hq
  unfold decodeRoutine at hq
  cases hu : utf8Decode p with
  | none =>
    simp only [hu] at hq
    split at hq <;> exact h q hq
  | some text =>
    simp only [hu] at hq
    split at hq
    · exact h q hq
    · exact applyTokens_pres P hP (splitOnComma text) qs 0 h q hq

lemma filter_dropWhile_nul (r : List Char) :
    (r.dropWhile (fun c => c = nulChar)).filter (fun c => c ≠ nulChar)
      = r.filter (fun c => c ≠ nulChar) := by
  induction r with
  | nil => rfl
  | cons c r ih =>
    by_cases hc : c = nulChar
    · subst hc
      simp only [List.dropWhile, List.filter, decide_True, decide_not]
      simpa using ih
    · simp [List.dropWhile, List.filter, hc]

lemma stripNulAll_reverse (t : List Char) :
    stripNulAll t = (t.reverse.filter (fun c => c ≠ nulChar)).reverse := by
  unfold stripNulAll
  rw [List.filter_reverse, List.reverse_reverse]

lemma stripNulAll_stripNulTrailing (t : List Char) :
    stripNulAll (stripNulTrailing t) = stripNulAll t := by
  rw [stripNulAll_reverse t, stripNulAll_reverse (stripNulTrailing t)]
  unfold stripNulTrailing
  rw [List.reverse_reverse, filter_dropWhile_nul]

lemma stripNulAll_of_not_mem {l : List Char} (h : nulChar ∉ l) : stripNulAll l = l := by
  unfold stripNulAll
  refine List.filter_eq_self.mpr ?_
  intro a ha
  simp only [ne_eq, decide_not, Bool.not_eq_true', decide_eq_false_iff_not]
  intro e
  exact h (e ▸ ha)

lemma decodeMany_pres (P : ChannelBuffer → Prop)
    (hP : ∀ q v, P q → P (q.append v))
    (ps : List (List Nat)) (qs : List ChannelBuffer)
    (h : ∀ q ∈ qs, P q) :
    ∀ q ∈ decodeMany qs ps, P q := by
  induction ps generalizing qs with
  | nil => exact h
  | cons p ps ih => exact ih (decodeRoutine qs p).queues (decodeRoutine_pres P hP qs p h)

end Lemmas

/-- Claim C1 is false on the code: decoding `"1.0,x,3.0"` on three configured
channels reports `NumericParse{1}` for the bad token, yet the queues are
mutated (channels 0 and 2 receive 1.0 and 3.0) — rejection is not atomic. -/
theorem c1_counterexample :
    (decodeRoutine (confirmValues [] 3) payloadBadToken).events
      = [DecodeEvent.numericParse 1] ∧
    (decodeRoutine (confirmValues [] 3) payloadBadToken).queues ≠ confirmValues [] 3 := by
  constructor
  · with_unfolding_all decide
  · with_unfolding_all decide

/-- Claim C1 (amended): when the payload decodes as UTF-8 and its token count
matches the channel count, a `NumericParse{i}` error is reported for each
token `i` that fails to parse, and the frame is applied per token, not
atomically: each channel whose token parses receives its value, each channel
whose token fails is left untouched. -/
theorem c1_amended_partial_application (qs : List ChannelBuffer) (payload : List Nat)
    (text : List Char)
    (h1 : utf8Decode payload = some text)
    (h2 : (splitOnComma text).length = qs.length) :
    (decodeRoutine qs payload).events = failEvents (splitOnComma text) 0 ∧
    ∀ j, (decodeRoutine qs payload).queues.get? j =
      (qs.get? j).map (tokenEffect ((splitOnComma text).getD j [])) := by
  rw [decodeRoutine_valid qs payload text h1 h2]
  refine ⟨applyTokens_snd (splitOnComma text) qs 0, fun j => ?_⟩
  rw [applyTokens_get?]
  simp

/-- Witness for C1 (amended) at the concrete frame `"1.0,x,3.0"` on three
configured channels. -/
theorem c1_witness :
    (decodeRoutine (confirmValues [] 3) payloadBadToken).events
      = failEvents (splitOnComma textBadToken) 0 ∧
    ∀ j, (decodeRoutine (confirmValues [] 3) payloadBadToken).queues.get? j =
      ((confirmValues [] 3).get? j).map (tokenEffect ((splitOnComma textBadToken).getD j [])) :=
  c1_amended_partial_application (confirmValues [] 3) payloadBadToken textBadToken
    (by decide) (by decide)

/-- Claim C2 is false on the code: decoding `"1.0,2.0,3.0"` on an unconfigured
subscription (empty `data_queues`) does not establish a channel count and
appends nothing — the frame is rejected with `ChannelMismatch{0, 3}`. -/
theorem c2_counterexample :
    decodeRoutine [] payloadThree =
      { queues := [], events := [DecodeEvent.channelMismatch 0 3], closed := false } := by
  decide

/-- Claim C2 (amended): an unconfigured subscription has an empty channel set
and every UTF-8-valid frame is rejected with `ChannelMismatch{0, N}` where `N`
is the frame's token count; channel count is established only by the user's
confirm-values control, never inferred from the first frame. -/
theorem c2_amended_unconfigured_rejects (payload : List Nat) (text : List Char)
    (h : utf8Decode payload = some text) :
    decodeRoutine [] payload =
      { queues := []
        events := [DecodeEvent.channelMismatch 0 (splitOnComma text).length]
        closed := false } := by
  have hl : (splitOnComma text).length ≠ ([] : List ChannelBuffer).length := by
    have := splitOnComma_length_pos text
    simp only [List.length_nil]
    omega
  simpa using decodeRoutine_mismatch [] payload text h hl

/-- Witness for C2 (amended) at the concrete frame `"1.0,2.0"`. -/
theorem c2_witness :
    decodeRoutine [] payloadTwo =
      { queues := [], events := [DecodeEvent.channelMismatch 0 2], closed := false } :=
  c2_amended_unconfigured_rejects payloadTwo textTwo (by decide)

/-- Claim C3: on a configured subscription, a UTF-8-valid frame whose token
count differs from the channel count is rejected whole with
`ChannelMismatch{expected, got}` and no buffer is mutated. -/
theorem c3_channel_mismatch_rejected (qs : List ChannelBuffer) (payload : List Nat)
    (text : List Char)
    (h1 : utf8Decode payload = some text)
    (h2 : (splitOnComma text).length ≠ qs.length) :
    decodeRoutine qs payload =
      { queues := qs
        events := [DecodeEvent.channelMismatch qs.length (splitOnComma text).length]
        closed := false } :=
  decodeRoutine_mismatch qs payload text h1 h2

/-- Witness for C3 at the concrete frame `"1.0,2.0"` on `Configured{3}`. -/
theorem c3_witness :
    decodeRoutine (confirmValues [] 3) payloadTwo =
      { queues := confirmValues [] 3
        events := [DecodeEvent.channelMismatch 3 2]
        closed := false } :=
  c3_channel_mismatch_rejected (confirmValues [] 3) payloadTwo textTwo (by decide) (by decide)

/-- Claim C4 is false on the code: after a single successfully decoded frame
on three freshly confirmed channels, every buffer has length 100 (the
buffers are pre-filled with 100 zeros), not `min(K, capacity) = 1`. -/
theorem c4_counterexample :
    (decodeRoutine (confirmValues [] 3) payloadThree).events = [] ∧
    (decodeRoutine (confirmValues [] 3) payloadThree).closed = false ∧
    ((decodeRoutine (confirmValues [] 3) payloadThree).queues.map (fun q => q.data.length))
      = [100, 100, 100] ∧
    min 1 100 ≠ 100 := by
  refine ⟨?_, ?_, ?_, ?_⟩ <;> with_unfolding_all decide

/-- Claim C4 (amended): after confirm-values creates the channel set, every
buffer's length is exactly 100 (the capacity) at every point of any frame
sequence, because buffers start pre-filled with 100 zeros and each append
evicts one sample. -/
theorem c4_amended_length_constant (old : List ChannelBuffer) (n : Nat)
    (ps : List (List Nat)) :
    ∀ q ∈ decodeMany (confirmValues old n) ps, q.data.length = 100 ∧ q.maxlen = 100 := by
  refine decodeMany_pres (fun q => q.data.length = 100 ∧ q.maxlen = 100) ?_ ps
    (confirmValues old n) ?_
  · rintro q v ⟨hl, hm⟩
    refine ⟨?_, ?_⟩
    · rw [append_length, hl, hm]; omega
    · rw [append_maxlen]; exact hm
  · intro q hq
    simp only [confirmValues, List.mem_replicate] at hq
    rw [hq.2]
    exact ⟨by simp [zeroBuffer], rfl⟩

/-- Witness for C4 (amended): the single buffer of a fresh one-channel set. -/
theorem c4_witness : zeroBuffer.data.length = 100 ∧ zeroBuffer.maxlen = 100 :=
  c4_amended_length_constant [] 1 [] zeroBuffer (by decide)

/-- Claim C5: a buffer whose length is within its capacity keeps its capacity
across any append sequence, its length never exceeds the capacity, and once at
least `capacity` values have been appended it holds exactly the last
`capacity` appended values in oldest-to-newest order (FIFO eviction). -/
theorem c5_fifo_bounded (b : ChannelBuffer) (vs : List ℚ) (h : b.data.length ≤ b.maxlen) :
    (appendAll b vs).maxlen = b.maxlen ∧
    (appendAll b vs).data.length ≤ b.maxlen ∧
    (b.maxlen ≤ vs.length → (appendAll b vs).data = vs.drop (vs.length - b.maxlen)) := by
  refine ⟨appendAll_maxlen b vs, ?_, ?_⟩
  · rw [appendAll_data b vs h, lastN]
    simp only [List.length_drop]
    omega
  · intro hc
    rw [appendAll_data b vs h, lastN]
    have e : (b.data ++ vs).length - b.maxlen = b.data.length + (vs.length - b.maxlen) := by
      simp only [List.length_append]; omega
    rw [e, List.drop_append]

/-- Witness for C5: capacity 2, three appended values, last two retained. -/
theorem c5_witness :
    (appendAll ⟨2, []⟩ [1, 2, 3]).maxlen = 2 ∧
    (appendAll ⟨2, []⟩ [1, 2, 3]).data.length ≤ 2 ∧
    (2 ≤ 3 → (appendAll ⟨2, []⟩ [1, 2, 3]).data = [1, 2, 3].drop (3 - 2)) :=
  c5_fifo_bounded ⟨2, []⟩ [1, 2, 3] (by decide)

/-- Claim C6 is false on the code: on an invalid UTF-8 payload the decode
routine closes the widget (`closed = true`), which stops the notification
subscription — the subscription does not remain active. -/
theorem c6_counterexample :
    decodeRoutine (confirmValues [] 1) [255] =
      { queues := confirmValues [] 1
        events := [DecodeEvent.encodingError, DecodeEvent.channelMismatch 1 0]
        closed := true } := by
  decide

/-- Claim C6 (amended): an invalid UTF-8 payload yields the encoding error and
mutates no buffer, but it is fatal to the subscription: the widget is closed,
so no subsequent frame is processed. -/
theorem c6_amended_encoding_fatal (qs : List ChannelBuffer) (payload : List Nat)
    (h : utf8Decode payload = none) :
    (decodeRoutine qs payload).queues = qs ∧
    (decodeRoutine qs payload).closed = true ∧
    DecodeEvent.encodingError ∈ (decodeRoutine qs payload).events := by
  unfold decodeRoutine
  rw [h]
  by_cases h0 : qs.length = 0 <;> simp [h0]

/-- Witness for C6 (amended) at the concrete invalid payload `[0xFF]`. -/
theorem c6_witness :
    (decodeRoutine [] [255]).queues = [] ∧
    (decodeRoutine [] [255]).closed = true ∧
    DecodeEvent.encodingError ∈ (decodeRoutine [] [255]).events :=
  c6_amended_encoding_fatal [] [255] (by decide)

/-- Claim C7 is false on the code: a second `connect_to_device` on a session
already holding a connected client does not fail with `AlreadyConnected`; it
succeeds and replaces the stored client, changing the session state. -/
theorem c7_counterexample :
    (connect_to_device { client := some { device := 0, connected := true } } 1 true).2
      = BTOutcome.ok () ∧
    (connect_to_device { client := some { device := 0, connected := true } } 1 true).1
      ≠ { client := some { device := 0, connected := true } } := by
  constructor <;> decide

/-- Claim C7 (amended): `connect_to_device` performs no state check: it never
fails with `AlreadyConnected`, and it unconditionally overwrites the stored
client with a fresh client for the requested device, discarding any existing
connection. -/
theorem c7_amended_connect_replaces (s : BTManager) (device : Nat) (ok : Bool) :
    (connect_to_device s device ok).2 ≠ BTOutcome.err BTError.alreadyConnected ∧
    (connect_to_device s device ok).1.client = some { device := device, connected := ok } := by
  unfold connect_to_device
  cases ok <;> simp

/-- Claim C8: `disconnect_from_device` is idempotent — from any session state,
one or more calls leave the same cleared state as one call — and once it has
run, every subsequent read fails with `NotConnected`. -/
theorem c8_disconnect_idempotent (s : BTManager) (bytes : List Nat) :
    disconnect_from_device (disconnect_from_device s) = disconnect_from_device s ∧
    (∀ n, disconnect_from_device^[n + 1] s = disconnect_from_device s) ∧
    (disconnect_from_device s).client = none ∧
    read_characteristic (disconnect_from_device s) bytes
      = BTOutcome.err BTError.notConnected := by
  have hnone : (disconnect_from_device s).client = none := by
    cases s with
    | mk client => cases client <;> simp [disconnect_from_device]
  have idem : ∀ t : BTManager, t.client = none → disconnect_from_device t = t := by
    intro t ht
    cases t with
    | mk client => cases client <;> simp_all [disconnect_from_device]
  refine ⟨idem (disconnect_from_device s) hnone, ?_, hnone, ?_⟩
  · intro n
    induction n with
    | zero => simp
    | succ n ih =>
      rw [Function.iterate_succ_apply', ih, idem (disconnect_from_device s) hnone]
  · simp [read_characteristic, hnone]

/-- Claim C9 is false on the code: on the token `"1\x005"`, whose only NUL is
interior, the code's `replace('\x00','')` yields `"15"` (which parses to 15)
while stripping only trailing NUL padding leaves a token that does not parse;
decoding the payload `"1\x005"` on one channel mutates its buffer. -/
theorem c9_counterexample :
    stripNulAll tokenInnerNul ≠ stripNulTrailing tokenInnerNul ∧
    pyFloat (stripNulAll tokenInnerNul) = some 15 ∧
    pyFloat (stripNulTrailing tokenInnerNul) = none ∧
    (decodeRoutine (confirmValues [] 1) payloadInnerNul).queues ≠ confirmValues [] 1 := by
  refine ⟨?_, ?_, ?_, ?_⟩ <;> with_unfolding_all decide

/-- Claim C9 (amended): before numeric parsing every NUL character of the
token is removed, wherever it occurs — not only the trailing padding; on
tokens whose only NUL characters are trailing the two strip policies agree. -/
theorem c9_amended_strip_all_nul (t : List Char) :
    stripNulAll t = stripNulAll (stripNulTrailing t) ∧
    (nulChar ∉ stripNulTrailing t → stripNulAll t = stripNulTrailing t) := by
  refine ⟨(stripNulAll_stripNulTrailing t).symm, ?_⟩
  intro h
  rw [← stripNulAll_stripNulTrailing t, stripNulAll_of_not_mem h]

/-- Claim C10: confirm-values replaces the whole channel set, whatever it
held, with `n` fresh capacity-100 buffers each pre-filled with 100 zero
samples; the result does not depend on the previous channel set. -/
theorem c10_confirm_values_reset (old old2 : List ChannelBuffer) (n : Nat) :
    (confirmValues old n).length = n ∧
    (∀ q ∈ confirmValues old n,
      q.maxlen = 100 ∧ q.data.length = 100 ∧ ∀ x ∈ q.data, x = 0) ∧
    confirmValues old n = confirmValues old2 n := by
  refine ⟨by simp [confirmValues], ?_, rfl⟩
  intro q hq
  simp only [confirmValues, List.mem_replicate] at hq
  rw [hq.2]
  refine ⟨rfl, by simp [zeroBuffer], ?_⟩
  intro x hx
  simp only [zeroBuffer, List.mem_replicate] at hx
  exact hx.2

end BTViz
